import Mathlib

/-!
Verification of the RoboSet video-preparation pipeline
(`src/processing.py`, `src/prepare_Autonomous.py`) against its
natural-language specification.

The development shallowly embeds the pieces of the source the claims are
about:

* the frame sampler `np.linspace(0, total_frames-1, frame_count, dtype=int)`
  (processing.py lines 99-102, prepare_Autonomous.py lines 85-88), modelled
  with exact rational/natural arithmetic (the float interpolation followed by
  the integer cast becomes truncating natural division);
* the byte-scaling step of the two encoders (processing.py lines 51-54 for
  the imageio primary path, lines 146-155 for the OpenCV fallback,
  prepare_Autonomous.py lines 106-118 for the simple variant);
* the quota-aware trial walker `process_h5_file` of processing.py
  (lines 69-182) and its driver loop `process_tarfile` (lines 207-211),
  with the external imageio/OpenCV encoders abstracted into an outcome
  alphabet and the per-view output directories modelled as lists of
  (video-written, json-written) records — each record stands for the unique
  base name `<file>-<TrialN>-<view>` of one production attempt;
* the trial-key ordering `sorted([k for k in file.keys() if 'Trial' in k],
  key=lambda x: int(x.replace('Trial','')))` (processing.py lines 78-80,
  prepare_Autonomous.py lines 64-66), with Python's `str.replace`,
  `in`-substring test, `int()` parsing and stable `sorted` translated to
  executable Lean functions.
-/

namespace RoboSet

/-! ## Frame sampler -/

/-- Frame sampler of `process_h5_file` (processing.py lines 99-102,
prepare_Autonomous.py lines 85-88): `np.linspace(0, total_frames-1,
frame_count, dtype=int)`.  Index `i` is the linear interpolation
`(total_frames-1)·i/(frame_count-1)` truncated to an integer; the model uses
exact natural division where NumPy evaluates in floating point and casts.
The sampler is a pure function of `(total_frames, frame_count)`, so
determinism is immediate. -/
def sampleIndices (total_frames frame_count : Nat) : List Nat :=
  (List.range frame_count).map fun i => (total_frames - 1) * i / (frame_count - 1)

/-- C1: for `total_frames ≥ frame_count ≥ 2` the sampler returns exactly
`frame_count` indices, the first is `0`, the last is `total_frames - 1`, the
sequence is non-decreasing, and entry `i` is the linear interpolation
`(total_frames-1)·i/(frame_count-1)` truncated to an integer.  Determinism
holds because `sampleIndices` is a function of its two arguments. -/
theorem sample_indices_spec (tf fc : Nat) (h2 : 2 ≤ fc) (hle : fc ≤ tf) :
    (sampleIndices tf fc).length = fc ∧
    (sampleIndices tf fc).head? = some 0 ∧
    (sampleIndices tf fc).getLast? = some (tf - 1) ∧
    List.Sorted (fun a b => a ≤ b) (sampleIndices tf fc) ∧
    (∀ i : Nat, i < fc → (sampleIndices tf fc)[i]? = some ((tf - 1) * i / (fc - 1))) := by
  obtain ⟨m, rfl⟩ : ∃ m, fc = m + 1 := ⟨fc - 1, by omega⟩
  have hm : 0 < m := by omega
  refine ⟨?_, ?_, ?_, ?_, ?_⟩
  · simp [sampleIndices]
  · obtain ⟨n, rfl⟩ : ∃ n, m = n + 1 := ⟨m - 1, by omega⟩
    simp [sampleIndices, List.range_succ_eq_map, List.head?_map]
  · have h : sampleIndices tf (m + 1) =
        (List.range m).map (fun i => (tf - 1) * i / (m + 1 - 1)) ++
          [(tf - 1) * m / (m + 1 - 1)] := by
      simp [sampleIndices, List.range_succ]
    rw [h, List.getLast?_concat]
    have : (tf - 1) * m / (m + 1 - 1) = tf - 1 := by
      simp only [Nat.add_sub_cancel]
      exact Nat.mul_div_cancel (tf - 1) hm
    rw [this]
  · unfold sampleIndices
    rw [List.Sorted, List.pairwise_map]
    exact (List.pairwise_lt_range _).imp
      (fun hab => Nat.div_le_div_right (Nat.mul_le_mul_left _ (Nat.le_of_lt hab)))
  · intro i hi
    unfold sampleIndices
    rw [List.getElem?_map, List.getElem?_range hi, Option.map_some']

/-- Witness for C1 at `total_frames = 10`, `frame_count = 4`. -/
theorem sample_indices_spec_witness :
    (sampleIndices 10 4).length = 4 ∧
    (sampleIndices 10 4).head? = some 0 ∧
    (sampleIndices 10 4).getLast? = some (10 - 1) ∧
    List.Sorted (fun a b => a ≤ b) (sampleIndices 10 4) ∧
    (∀ i : Nat, i < 4 → (sampleIndices 10 4)[i]? = some ((10 - 1) * i / (4 - 1))) :=
  sample_indices_spec 10 4 (by decide) (by decide)

/-! ## Byte scaling of the two encoding paths

Pixel values are modelled as rationals (`isFloat = true` stands for a
floating-point dtype array, `isFloat = false` for `np.uint8`).  Spatial
operations of the encoders (`cv2.resize`, RGB→BGR reordering) permute or
resample pixels but apply no value scaling, so the per-value transformation
each path applies before handing data to the backend is what is embedded. -/

/-- Model of NumPy `astype(np.uint8)` applied to a nonnegative rational value:
C-style truncation toward zero followed by the wrap to 8 bits. -/
def astypeUint8 (v : ℚ) : Nat :=
  (v.num / (v.den : Int)).toNat % 256

/-- Value transformation of the primary (imageio) path, processing.py lines
52-54: `if frames.dtype != np.uint8: frames = (frames * 255).astype(np.uint8)`.
Floating-point frames are multiplied by 255 and cast; `uint8` frames pass
through unchanged. -/
def imageioConvert (isFloat : Bool) (vals : List ℚ) : List ℚ :=
  if isFloat then vals.map (fun v => ((astypeUint8 (v * 255) : Nat) : ℚ)) else vals

/-- Value transformation of the OpenCV fallback frame loop, processing.py
lines 146-155, and of the simple variant's write loop, prepare_Autonomous.py
lines 106-118: the selected frames are resized, converted RGB→BGR and written
with no dtype conversion and no scaling, whatever their dtype. -/
def opencvWriteValues (vals : List ℚ) : List ℚ :=
  vals

/-- Counterexample to C9: a floating-point frame value of 1 (full brightness)
is encoded as 255 by the primary path but handed to the fallback encoder
unscaled, so the fallback path does not multiply floating-point frames by
255 as the claim states. -/
theorem fallback_no_scaling_cex :
    opencvWriteValues [(1 : ℚ)] ≠ [(255 : ℚ)] := by
  decide

/-- C9 (amended): the ×255-and-cast scaling of floating-point frames happens
only on the primary (imageio) path; the OpenCV fallback path and the simple
variant write the sampled frame values unchanged; `uint8` frames are passed
through unchanged on every path. -/
theorem byte_scaling_amended (vals : List ℚ) :
    imageioConvert false vals = vals ∧
    imageioConvert true vals = vals.map (fun v => ((astypeUint8 (v * 255) : Nat) : ℚ)) ∧
    opencvWriteValues vals = vals := by
  refine ⟨rfl, ?_, rfl⟩
  simp [imageioConvert]

/-! ## Order of operations in the per-view step (quota-aware walker) -/

/-- Operations the quota-aware walker can perform while handling one present
view of a trial (processing.py lines 94-163). -/
inductive Event where
  | validate
  | sample
  | quotaCheck
  | encode
  | writeJson
deriving DecidableEq, Repr

/-- Operation sequence of the per-view step of `process_h5_file`
(processing.py lines 94-163) for a view present in the trial's data group:
the shape/length validation (line 96), then — when it passes — the frame
sampling `np.linspace` and index selection (lines 100-102), then the
directory-listing quota check (lines 113-117), and only when the directory
is below `2·max_pairs` the encode (lines 122-156) and the JSON write
(lines 158-163).  `valid` = the shape check passes; `quotaFull` = the listed
directory already holds at least `2·max_pairs` files. -/
def viewTrace (valid : Bool) (quotaFull : Bool) : List Event :=
  if valid = false then [Event.validate]
  else if quotaFull then [Event.validate, Event.sample, Event.quotaCheck]
  else [Event.validate, Event.sample, Event.quotaCheck, Event.encode, Event.writeJson]

/-- Counterexample to C6: for a valid view whose directory is already full,
the quota check does not precede the frame sampling — the sampling event
occurs at position 1 of the trace and the quota check only at position 2,
so the walker consults the Frame Sampler before checking the quota. -/
theorem quota_check_order_cex :
    ¬ (List.indexOf Event.quotaCheck (viewTrace true true) <
        List.indexOf Event.sample (viewTrace true true)) := by
  decide

/-! ## Quota-aware trial walker (processing.py `process_h5_file`)

The external imageio/OpenCV encoders are abstracted into an outcome
alphabet.  `save_video_with_imageio` (processing.py lines 49-67) wraps the
whole primary encode in `try/except` and returns a Bool, so a primary-path
exception surfaces to the walker only as `False`.  On the OpenCV fallback
(lines 126-155) only the codec selection is guarded: the preferred-codec
attempt falls back to the compatibility codec, but nothing re-checks that
the compatibility writer opened (a writer that never opened produces no
file while the frame loop still completes), and an exception escaping the
frame-writing loop propagates out of the per-view code.  Following the
Materializer contract (§4.2 of the spec), a video file exists exactly when
an encode attempt completes; an exception ties no file to the path.

A view output directory is a list of production records, one per base name
`<file>-<TrialN>-<view>`: the pair of Booleans records whether the video
file and the JSON file with that base name exist. -/

/-- Outcome of the encoding backends for one produced view. -/
inductive EncodeOutcome where
  | primaryOk
  | fallbackOk
  | fallbackSilent
  | fallbackRaise
deriving DecidableEq, Repr

/-- How one of the four canonical views appears in a trial's `data` group:
missing key (processing.py line 91), failing the shape/length validation
(line 96), or valid with a given encoding outcome. -/
inductive ViewItem where
  | absent
  | invalid
  | valid (enc : EncodeOutcome)
deriving DecidableEq, Repr

/-- One production record of a view output directory: whether the video file
and the JSON file with that record's base name exist. -/
abbrev PairRecord := Bool × Bool

/-- Number of files a record contributes to the directory listing. -/
def pairFiles (p : PairRecord) : Nat :=
  (cond p.1 1 0) + (cond p.2 1 0)

/-- Number of files `os.listdir` sees in a view output directory
(processing.py line 114). -/
def dirFiles (d : List PairRecord) : Nat :=
  (d.map pairFiles).sum

/-- Return value of `save_video_with_imageio` (processing.py lines 49-67):
`True` on a successful primary encode, `False` otherwise — the internal
`try/except` turns every primary-path exception into `False`. -/
def save_video_with_imageio : EncodeOutcome → Bool
  | .primaryOk => true
  | _ => false

/-- One per-view step of `process_h5_file` (processing.py lines 90-163)
acting on that view's output directory: skip absent or invalid views; list
the directory and skip when it already holds `2·max_pairs` files (lines
113-117); otherwise attempt the primary encode (line 122), falling back to
OpenCV when it returns `False` (lines 126-155), and finally write the JSON
(lines 158-163).  The returned Boolean reports whether an exception escaped
the step (only the uncaught fallback frame-loop exception does). -/
def viewStep (max_pairs : Nat) (d : List PairRecord) : ViewItem → List PairRecord × Bool
  | .absent => (d, false)
  | .invalid => (d, false)
  | .valid enc =>
      if 2 * max_pairs ≤ dirFiles d then (d, false)
      else if save_video_with_imageio enc then (d ++ [(true, true)], false)
      else match enc with
        | .primaryOk => (d ++ [(true, true)], false)
        | .fallbackOk => (d ++ [(true, true)], false)
        | .fallbackSilent => (d ++ [(false, true)], false)
        | .fallbackRaise => (d, true)

/-- A sequence of per-view production steps of the walker against one view
output directory, stopping when a step's exception escapes. -/
def viewCalls (max_pairs : Nat) (d : List PairRecord) : List ViewItem → List PairRecord
  | [] => d
  | v :: vs =>
      let s := viewStep max_pairs d v
      if s.2 then s.1 else viewCalls max_pairs s.1 vs

/-- The four view output directories of one task, in the fixed order
left, right, top, wrist (pre-created by `process_tarfile`, processing.py
lines 190-192). -/
structure Dirs where
  left : List PairRecord
  right : List PairRecord
  top : List PairRecord
  wrist : List PairRecord
deriving DecidableEq, Repr

/-- The four canonical views of one trial's `data` group, in the walker's
fixed iteration order `rgb_left, rgb_right, rgb_top, rgb_wrist`
(processing.py line 89). -/
structure TrialData where
  left : ViewItem
  right : ViewItem
  top : ViewItem
  wrist : ViewItem
deriving DecidableEq, Repr

/-- A trial of the container: `none` models a trial without a `data` group
(processing.py lines 83-84), which is skipped entirely. -/
abbrev Trial := Option TrialData

/-- The inner view loop of `process_h5_file` for one trial (processing.py
lines 90-163): the four views are processed in order, each against its own
directory; an exception escaping one view's step aborts the remaining views
of the trial. -/
def viewsStep (max_pairs : Nat) (ds : Dirs) (t : TrialData) : Dirs × Bool :=
  let sl := viewStep max_pairs ds.left t.left
  let ds1 : Dirs := { ds with left := sl.1 }
  if sl.2 then (ds1, true) else
  let sr := viewStep max_pairs ds1.right t.right
  let ds2 : Dirs := { ds1 with right := sr.1 }
  if sr.2 then (ds2, true) else
  let st := viewStep max_pairs ds2.top t.top
  let ds3 : Dirs := { ds2 with top := st.1 }
  if st.2 then (ds3, true) else
  let sw := viewStep max_pairs ds3.wrist t.wrist
  ({ ds3 with wrist := sw.1 }, sw.2)

/-- The saturation check run after each trial that has a `data` group
(processing.py lines 166-172): every view directory holds at least
`2·max_pairs` files. -/
def allSaturated (max_pairs : Nat) (ds : Dirs) : Bool :=
  decide (2 * max_pairs ≤ dirFiles ds.left) &&
  decide (2 * max_pairs ≤ dirFiles ds.right) &&
  decide (2 * max_pairs ≤ dirFiles ds.top) &&
  decide (2 * max_pairs ≤ dirFiles ds.wrist)

/-- How the per-trial loop of `process_h5_file` ends: it ran out of trials,
it returned early because of saturation (line 175), or an exception escaped
the loop. -/
inductive WalkOutcome where
  | finished
  | saturated
  | raised
deriving DecidableEq, Repr

/-- The per-trial loop of `process_h5_file` (processing.py lines 82-176):
trials without a `data` group are skipped (also skipping the saturation
check, line 84); after every other trial the saturation check may end the
walk early. -/
def processTrials (max_pairs : Nat) (ds : Dirs) : List Trial → Dirs × WalkOutcome
  | [] => (ds, .finished)
  | none :: rest => processTrials max_pairs ds rest
  | some t :: rest =>
      let s := viewsStep max_pairs ds t
      if s.2 then (s.1, .raised)
      else if allSaturated max_pairs s.1 then (s.1, .saturated)
      else processTrials max_pairs s.1 rest

/-- The walker `process_h5_file` (processing.py lines 69-182): `none` models
a container that fails to open, handled by the whole-file `except` branch
(lines 177-182), which logs and returns `True`; an exception escaping the
per-trial loop lands in the same branch; saturation returns `False`
(line 175); otherwise the walker returns `True` (line 176). -/
def process_h5_file (max_pairs : Nat) (ds : Dirs) (file : Option (List Trial)) : Dirs × Bool :=
  match file with
  | none => (ds, true)
  | some ts =>
      match processTrials max_pairs ds ts with
      | (ds2, .saturated) => (ds2, false)
      | (ds2, _) => (ds2, true)

/-- The driver loop of `process_tarfile` over the located container files
(processing.py lines 207-211): each file is opened in turn until a walker
call returns `False`.  The second component counts how many files the
driver handed to the walker. -/
def process_tarfile (max_pairs : Nat) (ds : Dirs) : List (Option (List Trial)) → Dirs × Nat
  | [] => (ds, 0)
  | f :: fs =>
      let s := process_h5_file max_pairs ds f
      if s.2 then
        let r := process_tarfile max_pairs s.1 fs
        (r.1, r.2 + 1)
      else (s.1, 1)

/-- The empty state: all four view directories empty. -/
def emptyDirs : Dirs := ⟨[], [], [], []⟩

/-- A complete pair: both the video and the JSON file exist. -/
def fullPair : PairRecord := (true, true)

/-! ## C2: directory quota -/

theorem dirFiles_append (d e : List PairRecord) :
    dirFiles (d ++ e) = dirFiles d + dirFiles e := by
  simp [dirFiles]

theorem pairFiles_le_two (p : PairRecord) : pairFiles p ≤ 2 := by
  rcases p with ⟨a, b⟩
  cases a <;> cases b <;> decide

theorem dirFiles_viewStep_le (max_pairs : Nat) (d : List PairRecord) (v : ViewItem) :
    dirFiles (viewStep max_pairs d v).1 ≤ max (dirFiles d) (2 * max_pairs + 1) := by
  cases v with
  | absent => exact le_max_left _ _
  | invalid => exact le_max_left _ _
  | valid enc =>
    simp only [viewStep]
    split
    · exact le_max_left _ _
    · rename_i hlt
      have hlt2 : dirFiles d < 2 * max_pairs := Nat.lt_of_not_le hlt
      have hbound : ∀ p : PairRecord,
          dirFiles (d ++ [p]) ≤ max (dirFiles d) (2 * max_pairs + 1) := by
        intro p
        rw [dirFiles_append]
        have : dirFiles [p] ≤ 2 := by
          simpa [dirFiles] using pairFiles_le_two p
        exact le_max_of_le_right (by omega)
      split
      · exact hbound _
      · cases enc with
        | primaryOk => exact hbound _
        | fallbackOk => exact hbound _
        | fallbackSilent => exact hbound _
        | fallbackRaise => exact le_max_left _ _

/-- Counterexample to C2: with `max_pairs = 1` and a view directory that
already holds a single (unpaired) file when the call begins, one successful
production step leaves 3 files in the directory — more than
`2 · max_pairs = 2` — so the bound does not hold regardless of the
directory's contents when the call began. -/
theorem quota_bound_cex :
    ¬ (dirFiles (viewCalls 1 [(false, true)] [ViewItem.valid EncodeOutcome.primaryOk]) ≤ 2 * 1) := by
  decide

/-- C2 (amended): after any sequence of view-production calls by the
quota-aware walker against one view output directory, the directory holds at
most `max n₀ (2 · max_pairs + 1)` files, where `n₀` is the file count when
the sequence began; each call adds files only when the listed count is still
below `2 · max_pairs`, and adds at most two. -/
theorem quota_bound_amended (max_pairs : Nat) (d : List PairRecord) (vs : List ViewItem) :
    dirFiles (viewCalls max_pairs d vs) ≤ max (dirFiles d) (2 * max_pairs + 1) := by
  induction vs generalizing d with
  | nil => exact le_max_left _ _
  | cons v vs ih =>
    rw [viewCalls]
    have hstep := dirFiles_viewStep_le max_pairs d v
    split
    · exact hstep
    · have := ih (viewStep max_pairs d v).1
      omega

/-! ## C6: quota skip and its position relative to the sampler -/

/-- C6 (amended): for a view whose output directory already holds at least
`2 · max_pairs` files, the walker skips the production step — no encode, no
JSON write, the directory is unchanged and no error is raised — but the skip
happens only after the frame sampling: the frame-index computation and frame
selection occur before the quota check, not after it. -/
theorem quota_skip_amended (max_pairs : Nat) (d : List PairRecord) (enc : EncodeOutcome)
    (hfull : 2 * max_pairs ≤ dirFiles d) :
    List.indexOf Event.sample (viewTrace true true) <
      List.indexOf Event.quotaCheck (viewTrace true true) ∧
    Event.encode ∉ viewTrace true true ∧
    Event.writeJson ∉ viewTrace true true ∧
    viewStep max_pairs d (ViewItem.valid enc) = (d, false) := by
  refine ⟨by decide, by decide, by decide, ?_⟩
  simp only [viewStep, if_pos hfull]

/-- Witness for the amended C6 at `max_pairs = 1` and a directory already
holding one complete pair. -/
theorem quota_skip_amended_witness :
    List.indexOf Event.sample (viewTrace true true) <
      List.indexOf Event.quotaCheck (viewTrace true true) ∧
    Event.encode ∉ viewTrace true true ∧
    Event.writeJson ∉ viewTrace true true ∧
    viewStep 1 [fullPair] (ViewItem.valid EncodeOutcome.primaryOk) = ([fullPair], false) :=
  quota_skip_amended 1 [fullPair] EncodeOutcome.primaryOk (by decide)

/-! ## C4: video/JSON pairing -/

/-- Both files of every production record of a directory exist, or neither:
the one-to-one pairing of video and JSON files with the same base name. -/
abbrev pairedDir (d : List PairRecord) : Prop :=
  ∀ p ∈ d, p.1 = p.2

/-- Every video file of a directory has its JSON file with the same base
name. -/
abbrev videoHasJson (d : List PairRecord) : Prop :=
  ∀ p ∈ d, p.1 = true → p.2 = true

/-- Every video file of every view output directory has its JSON file. -/
abbrev dirsVideoHasJson (ds : Dirs) : Prop :=
  videoHasJson ds.left ∧ videoHasJson ds.right ∧
    videoHasJson ds.top ∧ videoHasJson ds.wrist

theorem videoHasJson_viewStep (max_pairs : Nat) (d : List PairRecord) (v : ViewItem)
    (h : videoHasJson d) : videoHasJson (viewStep max_pairs d v).1 := by
  have happ : ∀ q : PairRecord, q.2 = true → videoHasJson (d ++ [q]) := by
    intro q hq p hp hv
    rcases List.mem_append.mp hp with hp | hp
    · exact h p hp hv
    · rcases List.mem_singleton.mp hp with rfl
      exact hq
  cases v with
  | absent => exact h
  | invalid => exact h
  | valid enc =>
    simp only [viewStep]
    split
    · exact h
    · split
      · exact happ _ rfl
      · cases enc with
        | primaryOk => exact happ _ rfl
        | fallbackOk => exact happ _ rfl
        | fallbackSilent => exact happ _ rfl
        | fallbackRaise => exact h

theorem dirsVideoHasJson_viewsStep (max_pairs : Nat) (ds : Dirs) (t : TrialData)
    (h : dirsVideoHasJson ds) : dirsVideoHasJson (viewsStep max_pairs ds t).1 := by
  obtain ⟨h1, h2, h3, h4⟩ := h
  have hl := videoHasJson_viewStep max_pairs ds.left t.left h1
  have hr := videoHasJson_viewStep max_pairs ds.right t.right h2
  have ht := videoHasJson_viewStep max_pairs ds.top t.top h3
  have hw := videoHasJson_viewStep max_pairs ds.wrist t.wrist h4
  simp only [viewsStep]
  split
  · exact ⟨hl, h2, h3, h4⟩
  · split
    · exact ⟨hl, hr, h3, h4⟩
    · split
      · exact ⟨hl, hr, ht, h4⟩
      · exact ⟨hl, hr, ht, hw⟩

theorem dirsVideoHasJson_processTrials (max_pairs : Nat) (ts : List Trial) :
    ∀ ds : Dirs, dirsVideoHasJson ds → dirsVideoHasJson (processTrials max_pairs ds ts).1 := by
  induction ts with
  | nil => intro ds h; exact h
  | cons t rest ih =>
    intro ds h
    cases t with
    | none => simpa only [processTrials] using ih ds h
    | some td =>
      simp only [processTrials]
      have hs := dirsVideoHasJson_viewsStep max_pairs ds td h
      split
      · exact hs
      · split
        · exact hs
        · exact ih _ hs

/-- Counterexample to C4: a run over a file with one trial whose `rgb_left`
stream is valid, where the primary encode fails and neither codec of the
OpenCV fallback opens a writer (so the fallback frame loop completes without
raising and without producing a video file).  The walker still writes the
JSON unconditionally, leaving a JSON file with no matching video — the
pairing is not one-to-one after this run with a failed encoding attempt. -/
theorem pairing_cex :
    ¬ pairedDir ((process_h5_file 1 emptyDirs
        (some [some ⟨ViewItem.valid EncodeOutcome.fallbackSilent,
          ViewItem.absent, ViewItem.absent, ViewItem.absent⟩])).1).left := by
  decide

/-- C4 (amended): after any run of the quota-aware walker over a container
file starting from directories in which every video file has its JSON file
(in particular from empty directories), every video file present in a view
output directory still has a JSON file with the identical base name — the
walker writes the JSON immediately after any encode attempt that completes.
The converse direction fails: a fallback encode that completes without
producing a video file still gets its JSON (see the counterexample). -/
theorem pairing_amended (max_pairs : Nat) (ds : Dirs) (file : Option (List Trial))
    (h : dirsVideoHasJson ds) :
    dirsVideoHasJson (process_h5_file max_pairs ds file).1 := by
  cases file with
  | none => exact h
  | some ts =>
    have h2 := dirsVideoHasJson_processTrials max_pairs ts ds h
    simp only [process_h5_file]
    rcases h3 : processTrials max_pairs ds ts with ⟨ds2, o⟩
    rw [h3] at h2
    cases o <;> exact h2

/-- Witness for the amended C4: starting from empty directories, a run with
one successfully produced `rgb_left` view leaves no video file without its
JSON file. -/
theorem pairing_amended_witness :
    dirsVideoHasJson ((process_h5_file 1 emptyDirs
        (some [some ⟨ViewItem.valid EncodeOutcome.primaryOk,
          ViewItem.absent, ViewItem.absent, ViewItem.absent⟩])).1) :=
  pairing_amended 1 emptyDirs
    (some [some ⟨ViewItem.valid EncodeOutcome.primaryOk,
      ViewItem.absent, ViewItem.absent, ViewItem.absent⟩]) (by decide)

/-! ## C3: saturation short-circuit -/

/-- C3: when the walker finishes processing a trial (no exception escaped
its view loop) and afterwards every one of the four view output directories
holds at least `2 · max_pairs` files, the walker processes none of the
remaining trials and returns the saturated signal `False`; the driver then
hands no further container file of the task to the walker — only the
saturating file was opened, every remaining file is skipped entirely. -/
theorem saturation_stop (max_pairs : Nat) (ds : Dirs) (td : TrialData) (rest : List Trial)
    (fs : List (Option (List Trial)))
    (hnr : (viewsStep max_pairs ds td).2 = false)
    (hsat : allSaturated max_pairs (viewsStep max_pairs ds td).1 = true) :
    processTrials max_pairs ds (some td :: rest) =
      ((viewsStep max_pairs ds td).1, WalkOutcome.saturated) ∧
    process_h5_file max_pairs ds (some (some td :: rest)) =
      ((viewsStep max_pairs ds td).1, false) ∧
    (process_tarfile max_pairs ds ((some (some td :: rest)) :: fs)).2 = 1 := by
  have h1 : processTrials max_pairs ds (some td :: rest) =
      ((viewsStep max_pairs ds td).1, WalkOutcome.saturated) := by
    simp only [processTrials, hnr, hsat, Bool.false_eq_true, if_false, if_true]
  have h2 : process_h5_file max_pairs ds (some (some td :: rest)) =
      ((viewsStep max_pairs ds td).1, false) := by
    simp only [process_h5_file, h1]
  refine ⟨h1, h2, ?_⟩
  simp only [process_tarfile, h2, Bool.false_eq_true, if_false]

/-- A trial whose four views are all absent from its `data` group. -/
def absentTrial : TrialData := ⟨.absent, .absent, .absent, .absent⟩

/-- Directories already holding one complete pair per view: saturated for
`max_pairs = 1`. -/
def satDirs : Dirs := ⟨[fullPair], [fullPair], [fullPair], [fullPair]⟩

/-- Witness for C3 at `max_pairs = 1`, directories already saturated, a
trial with no producible view, one further trial and one further file. -/
theorem saturation_stop_witness :
    processTrials 1 satDirs (some absentTrial :: [none]) =
      ((viewsStep 1 satDirs absentTrial).1, WalkOutcome.saturated) ∧
    process_h5_file 1 satDirs (some (some absentTrial :: [none])) =
      ((viewsStep 1 satDirs absentTrial).1, false) ∧
    (process_tarfile 1 satDirs ((some (some absentTrial :: [none])) :: [some []])).2 = 1 :=
  saturation_stop 1 satDirs absentTrial [none] [some []] (by decide) (by decide)

/-! ## C5: isolation of encoder failures -/

/-- A trial whose `rgb_left` encode raises on the fallback path while
`rgb_right` is valid and would encode successfully. -/
def raiseTrial : TrialData :=
  ⟨.valid .fallbackRaise, .valid .primaryOk, .absent, .absent⟩

/-- Counterexample to C5: in a run over one trial whose `rgb_left` fallback
encode raises and whose `rgb_right` view is valid and under quota, the
exception is not caught at the view level: the walker aborts the trial, the
`rgb_right` directory stays empty instead of receiving its pair, and control
reaches the whole-file handler (which returns `True`).  The walker therefore
does not proceed to the remaining views after a fallback-path failure. -/
theorem view_failure_cex :
    process_h5_file 1 emptyDirs (some [some raiseTrial]) = (emptyDirs, true) ∧
    (process_h5_file 1 emptyDirs (some [some raiseTrial])).1.right ≠ [fullPair] := by
  constructor
  · decide
  · decide

/-- C5 (amended): a primary-path (imageio) failure is caught inside the
encoder, which merely reports `False`; the walker then runs the OpenCV
fallback and, when it completes, continues with the remaining views exactly
as after a successful production.  An exception escaping the fallback
frame-writing loop, however, is not caught locally: it aborts the remaining
views of the trial and the remaining trials of the file, landing in the
whole-file handler, which returns the continue signal `True`. -/
theorem view_failure_amended (max_pairs : Nat) (ds : Dirs) (r t w : ViewItem)
    (rest : List Trial) (hq : dirFiles ds.left < 2 * max_pairs) :
    viewsStep max_pairs ds ⟨.valid .fallbackOk, r, t, w⟩ =
      viewsStep max_pairs { ds with left := ds.left ++ [fullPair] } ⟨.absent, r, t, w⟩ ∧
    viewsStep max_pairs ds ⟨.valid .fallbackRaise, r, t, w⟩ = (ds, true) ∧
    processTrials max_pairs ds (some ⟨.valid .fallbackRaise, r, t, w⟩ :: rest) =
      (ds, WalkOutcome.raised) ∧
    process_h5_file max_pairs ds (some (some ⟨.valid .fallbackRaise, r, t, w⟩ :: rest)) =
      (ds, true) := by
  have hnot : ¬ (2 * max_pairs ≤ dirFiles ds.left) := Nat.not_le.mpr hq
  have hfb : viewStep max_pairs ds.left (ViewItem.valid EncodeOutcome.fallbackOk) =
      (ds.left ++ [fullPair], false) := by
    simp [viewStep, hnot, save_video_with_imageio, fullPair]
  have hfr : viewStep max_pairs ds.left (ViewItem.valid EncodeOutcome.fallbackRaise) =
      (ds.left, true) := by
    simp [viewStep, hnot, save_video_with_imageio]
  have h1 : viewsStep max_pairs ds ⟨.valid .fallbackOk, r, t, w⟩ =
      viewsStep max_pairs { ds with left := ds.left ++ [fullPair] } ⟨.absent, r, t, w⟩ := by
    unfold viewsStep
    rw [hfb]
    simp [viewStep]
  have h2 : viewsStep max_pairs ds ⟨.valid .fallbackRaise, r, t, w⟩ = (ds, true) := by
    unfold viewsStep
    rw [hfr]
    simp
  have h3 : processTrials max_pairs ds (some ⟨.valid .fallbackRaise, r, t, w⟩ :: rest) =
      (ds, WalkOutcome.raised) := by
    simp only [processTrials, h2, if_true]
  refine ⟨h1, h2, h3, ?_⟩
  simp only [process_h5_file, h3]

/-- Witness for the amended C5 at `max_pairs = 1`, empty directories, a
valid `rgb_right` view and one further trial. -/
theorem view_failure_amended_witness :
    viewsStep 1 emptyDirs ⟨.valid .fallbackOk, .valid .primaryOk, .absent, .absent⟩ =
      viewsStep 1 { emptyDirs with left := emptyDirs.left ++ [fullPair] }
        ⟨.absent, .valid .primaryOk, .absent, .absent⟩ ∧
    viewsStep 1 emptyDirs ⟨.valid .fallbackRaise, .valid .primaryOk, .absent, .absent⟩ =
      (emptyDirs, true) ∧
    processTrials 1 emptyDirs
        (some ⟨.valid .fallbackRaise, .valid .primaryOk, .absent, .absent⟩ :: [none]) =
      (emptyDirs, WalkOutcome.raised) ∧
    process_h5_file 1 emptyDirs
        (some (some ⟨.valid .fallbackRaise, .valid .primaryOk, .absent, .absent⟩ :: [none])) =
      (emptyDirs, true) :=
  view_failure_amended 1 emptyDirs (.valid .primaryOk) .absent .absent [none] (by decide)

/-! ## C7: whole-file failure handling -/

/-- C7: a container that fails to open, or an exception escaping the
per-trial loop, is caught by the whole-file handler of `process_h5_file`,
which returns the continue signal `True` (not saturated), and the driver
then proceeds to open the next container file of the task. -/
theorem file_error_continue (max_pairs : Nat) (ds : Dirs) (ts : List Trial)
    (fs : List (Option (List Trial))) :
    process_h5_file max_pairs ds none = (ds, true) ∧
    ((processTrials max_pairs ds ts).2 = WalkOutcome.raised →
      process_h5_file max_pairs ds (some ts) = ((processTrials max_pairs ds ts).1, true)) ∧
    (process_tarfile max_pairs ds (none :: fs)).2 = (process_tarfile max_pairs ds fs).2 + 1 := by
  refine ⟨rfl, ?_, ?_⟩
  · intro h
    simp only [process_h5_file]
    rcases h3 : processTrials max_pairs ds ts with ⟨ds2, o⟩
    rw [h3] at h
    simp only at h
    rw [h]
  · simp only [process_tarfile, process_h5_file, if_true]

/-- Witness for C7 at `max_pairs = 1`, empty directories, a trial list whose
single trial raises on the fallback path, and one further file. -/
theorem file_error_continue_witness :
    process_h5_file 1 emptyDirs none = (emptyDirs, true) ∧
    process_h5_file 1 emptyDirs (some [some raiseTrial]) =
      ((processTrials 1 emptyDirs [some raiseTrial]).1, true) ∧
    (process_tarfile 1 emptyDirs (none :: [some []])).2 =
      (process_tarfile 1 emptyDirs [some []]).2 + 1 :=
  ⟨(file_error_continue 1 emptyDirs [some raiseTrial] [some []]).1,
    (file_error_continue 1 emptyDirs [some raiseTrial] [some []]).2.1 (by decide),
    (file_error_continue 1 emptyDirs [some raiseTrial] [some []]).2.2⟩

/-! ## Trial-key selection and ordering

Models of `sorted([k for k in file.keys() if 'Trial' in k],
key=lambda x: int(x.replace('Trial','')))` (processing.py lines 78-80,
prepare_Autonomous.py lines 64-66): the Python substring test `'Trial' in k`,
the left-to-right non-overlapping `str.replace('Trial', '')`, base-10
`int()` parsing (optional sign, nonempty digit run; anything else raises
`ValueError`, modelled as `none`), and the stable ascending sort. -/

/-- Python `'Trial' in k` on the character list of `k`. -/
def containsTrial : List Char → Bool
  | 'T' :: 'r' :: 'i' :: 'a' :: 'l' :: _ => true
  | _ :: cs => containsTrial cs
  | [] => false

/-- Python `k.replace('Trial', '')`: remove every non-overlapping occurrence
of `Trial`, scanning left to right. -/
def removeTrial : List Char → List Char
  | 'T' :: 'r' :: 'i' :: 'a' :: 'l' :: rest => removeTrial rest
  | c :: cs => c :: removeTrial cs
  | [] => []

/-- Value of one decimal digit character. -/
def digitVal (c : Char) : Nat :=
  c.toNat - '0'.toNat

/-- Parse a nonempty run of decimal digits; `none` on the empty string or on
any non-digit character. -/
def parseDigitsAux : Nat → List Char → Option Nat
  | acc, [] => some acc
  | acc, c :: cs =>
      if c.isDigit then parseDigitsAux (acc * 10 + digitVal c) cs else none

/-- Parse a nonempty run of decimal digits. -/
def parseDigits : List Char → Option Nat
  | [] => none
  | cs => parseDigitsAux 0 cs

/-- Python `int(s)` in base 10 on the strings arising as trial keys:
an optional sign followed by a nonempty digit run; `none` models the
`ValueError` raised on anything else. -/
def pyInt : List Char → Option Int
  | '-' :: cs => (parseDigits cs).map (fun n => -(n : Int))
  | '+' :: cs => (parseDigits cs).map (fun n => (n : Int))
  | cs => (parseDigits cs).map (fun n => (n : Int))

/-- The sort key `int(k.replace('Trial',''))` of one trial key; `none` when
`int()` raises. -/
def keyVal (k : String) : Option Int :=
  pyInt (removeTrial k.toList)

/-- The sort key with a default, used only on keys known to parse. -/
def keyValD (k : String) : Int :=
  (keyVal k).getD 0

/-- Insert a key into a list sorted by `keyValD`, before the first entry
with a key at least as large. -/
def orderedInsertKey (a : String) : List String → List String
  | [] => [a]
  | b :: bs => if keyValD a ≤ keyValD b then a :: b :: bs else b :: orderedInsertKey a bs

/-- Ordered insertion sort by `keyValD`: a stable comparison sort, hence the
same output Python's stable `sorted` produces for this key function. -/
def sortByKey : List String → List String
  | [] => []
  | a :: as => orderedInsertKey a (sortByKey as)

/-- The trial-visit order of the walker (processing.py lines 78-80): keep
the keys containing `Trial`, compute each one's `int` sort key, and sort
ascending; `none` when `int()` raises a `ValueError` on some kept key. -/
def sortTrialKeys (keys : List String) : Option (List String) :=
  let f := keys.filter (fun k => containsTrial k.toList)
  if f.all (fun k => (keyVal k).isSome) then some (sortByKey f) else none

/-- The walker entry seen from the container's key set: a failed container
open (`openOk = false`) and a `ValueError` escaping the key sort both land
in the whole-file handler (processing.py lines 177-182), which returns
`True` with nothing produced; otherwise the per-trial loop runs over the
sorted keys' trials, `tr` giving each key's trial content. -/
def process_h5_keys (max_pairs : Nat) (ds : Dirs) (openOk : Bool) (keys : List String)
    (tr : String → Trial) : Dirs × Bool :=
  if openOk = false then (ds, true)
  else
    match sortTrialKeys keys with
    | none => (ds, true)
    | some order => process_h5_file max_pairs ds (some (order.map tr))

theorem orderedInsertKey_perm (a : String) (l : List String) :
    (orderedInsertKey a l).Perm (a :: l) := by
  induction l with
  | nil => exact List.Perm.refl _
  | cons b bs ih =>
    rw [orderedInsertKey]
    split
    · exact List.Perm.refl _
    · exact (ih.cons b).trans (List.Perm.swap a b bs)

theorem sortByKey_perm (l : List String) : (sortByKey l).Perm l := by
  induction l with
  | nil => exact List.Perm.refl _
  | cons a as ih =>
    rw [sortByKey]
    exact (orderedInsertKey_perm a (sortByKey as)).trans (ih.cons a)

theorem pairwise_orderedInsertKey (a : String) (l : List String)
    (h : l.Pairwise (fun x y => keyValD x ≤ keyValD y)) :
    (orderedInsertKey a l).Pairwise (fun x y => keyValD x ≤ keyValD y) := by
  induction l with
  | nil => simp [orderedInsertKey]
  | cons b bs ih =>
    rcases List.pairwise_cons.mp h with ⟨hb, hbs⟩
    rw [orderedInsertKey]
    split
    · rename_i hab
      refine List.pairwise_cons.mpr ⟨?_, h⟩
      intro y hy
      rcases List.mem_cons.mp hy with rfl | hy
      · exact hab
      · exact le_trans hab (hb y hy)
    · rename_i hab
      have hba : keyValD b ≤ keyValD a := le_of_not_le hab
      refine List.pairwise_cons.mpr ⟨?_, ih hbs⟩
      intro y hy
      rcases List.mem_cons.mp ((orderedInsertKey_perm a bs).mem_iff.mp hy) with rfl | hy2
      · exact hba
      · exact hb y hy2

theorem pairwise_sortByKey (l : List String) :
    (sortByKey l).Pairwise (fun x y => keyValD x ≤ keyValD y) := by
  induction l with
  | nil => simp [sortByKey]
  | cons a as ih =>
    rw [sortByKey]
    exact pairwise_orderedInsertKey a (sortByKey as) ih

/-- C8: whenever the key sort succeeds and the numeric indices of the kept
trial keys are pairwise distinct (as they are for distinct keys of the
canonical form `Trial<N>`), the walker's trial-visit order is strictly
increasing in the numeric trial index — numeric order, not lexical order.
The witness instantiates the claim's example: `["Trial10","Trial2","Trial1"]`
is visited as `Trial1, Trial2, Trial10`. -/
theorem trial_order_sorted (keys out : List String)
    (hs : sortTrialKeys keys = some out)
    (hnd : ((keys.filter (fun k => containsTrial k.toList)).map keyValD).Nodup) :
    out.Pairwise (fun a b => keyValD a < keyValD b) := by
  simp only [sortTrialKeys] at hs
  split at hs
  · have hout : sortByKey (keys.filter (fun k => containsTrial k.toList)) = out :=
      Option.some_inj.mp hs
    have hle := pairwise_sortByKey (keys.filter (fun k => containsTrial k.toList))
    have hperm := sortByKey_perm (keys.filter (fun k => containsTrial k.toList))
    rw [hout] at hle hperm
    have hnd2 : (out.map keyValD).Nodup :=
      ((hperm.map keyValD).nodup_iff).mpr hnd
    have hne : out.Pairwise (fun a b => keyValD a ≠ keyValD b) :=
      List.pairwise_map.mp hnd2
    exact (hle.and hne).imp (fun h => lt_of_le_of_ne h.1 h.2)
  · cases hs

/-- Witness for C8 on the claim's example: the walker visits
`["Trial10","Trial2","Trial1"]` as `Trial1, Trial2, Trial10`, and that
order is strictly increasing in the numeric index. -/
theorem trial_order_sorted_witness :
    sortTrialKeys ["Trial10", "Trial2", "Trial1"] =
      some ["Trial1", "Trial2", "Trial10"] ∧
    (["Trial1", "Trial2", "Trial10"] : List String).Pairwise
      (fun a b => keyValD a < keyValD b) :=
  ⟨by decide,
    trial_order_sorted ["Trial10", "Trial2", "Trial1"] ["Trial1", "Trial2", "Trial10"]
      (by decide) (by decide)⟩

/-- C10: when some container key contains the substring `Trial` but its
remainder after removing `Trial` is not a decimal integer, the key sort
raises a `ValueError` before any trial is processed; the whole-file handler
catches it, no output file is produced for any trial of that file, and the
walker still returns the continue signal `True`. -/
theorem bad_trial_key_skips_file (max_pairs : Nat) (ds : Dirs) (keys : List String)
    (tr : String → Trial) (k : String) (hk : k ∈ keys)
    (hc : containsTrial k.toList = true) (hp : keyVal k = none) :
    sortTrialKeys keys = none ∧
    process_h5_keys max_pairs ds true keys tr = (ds, true) := by
  have hmem : k ∈ keys.filter (fun k => containsTrial k.toList) :=
    List.mem_filter.mpr ⟨hk, hc⟩
  have hall : ((keys.filter (fun k => containsTrial k.toList)).all
      (fun k => (keyVal k).isSome)) = false := by
    cases hq : (keys.filter (fun k => containsTrial k.toList)).all
        (fun k => (keyVal k).isSome) with
    | false => rfl
    | true =>
      have h2 := List.all_eq_true.mp hq k hmem
      rw [hp] at h2
      simp at h2
  have hsort : sortTrialKeys keys = none := by
    simp only [sortTrialKeys, hall, Bool.false_eq_true, if_false]
  exact ⟨hsort, by simp [process_h5_keys, hsort]⟩

/-- Witness for C10 at the key set `["TrialMeta", "Trial1"]`: `TrialMeta`
contains `Trial` but `Meta` is not a decimal integer, so the whole file is
skipped with the continue signal and the directories are untouched. -/
theorem bad_trial_key_skips_file_witness :
    sortTrialKeys ["TrialMeta", "Trial1"] = none ∧
    process_h5_keys 1 emptyDirs true ["TrialMeta", "Trial1"] (fun _ => none) =
      (emptyDirs, true) :=
  bad_trial_key_skips_file 1 emptyDirs ["TrialMeta", "Trial1"] (fun _ => none)
    "TrialMeta" (by decide) (by decide) (by decide)

end RoboSet
